import Mathlib

/-!
Verification of the argument-parser core of the PyMenus repository
(`src/ultra_cli/argument_parser/parser.py`), via a shallow embedding:
Python values become `PyVal`, the validator callables actually used by the
schemas under study (`bool`, `int`, `str`, `list`) become `PyType`, the
class `Option` becomes `Opt` (renamed to avoid clashing with Lean's
`Option`), and `ArgumentParser.parse_arguments` becomes `parse_arguments`.
Raised Python exceptions become `Except PyErr` results.
-/

/-- A Python runtime value, restricted to the shapes the parser produces:
strings (the raw tokens), booleans, integers, lists, `Ellipsis` (the
"no default" marker) and `None`. -/
inductive PyVal where
  | str (s : String)
  | bool (b : Bool)
  | int (n : Int)
  | ellipsis
  | noneVal
  | list (xs : List PyVal)

/-- The validator callables the embedded schemas use: the Python builtins
`bool`, `int`, `str` and `list`.  (The complex-handler table for
`Literal`/`Union` annotations, parser.py lines 26-30, is not exercised by
any schema studied here.) -/
inductive PyType where
  | bool
  | int
  | str
  | list
deriving DecidableEq

/-- A raised Python exception: `ValidationError(msg)` from
`ultra_cli.argument_parser.exceptions`, a bare `AssertionError` (which a
user hook may raise), `IndexError` (string indexing past the end) and
`KeyError` (missing dict key). -/
inductive PyErr where
  | validationError (msg : String)
  | assertionError (msg : String)
  | indexError
  | keyError
  | fuelOut
deriving DecidableEq

/-- A single-quote character as a string, used to spell Python repr text. -/
def squote : String := String.singleton (Char.ofNat 39)

/-- Python truthiness of a value (used by `bool(...)`). -/
def pyTruthy : PyVal → Bool
  | .bool b => b
  | .int n => n != 0
  | .str s => s != ""
  | .list xs => !xs.isEmpty
  | .ellipsis => true
  | .noneVal => false

/-- Source: `repr` of a Python value (only reached through `str` on non-string
values, which the parse flows studied here never do). -/
def pyRepr : PyVal → String
  | .str s => squote ++ s ++ squote
  | .bool b => if b then "True" else "False"
  | .int n => toString n
  | .ellipsis => "Ellipsis"
  | .noneVal => "None"
  | .list _ => "[...]"

/-- Python `str(...)` applied to a value. -/
def pyStrOf : PyVal → String
  | .str s => s
  | v => pyRepr v

/-- An ASCII whitespace character (as stripped by Python `int(s)`). -/
def isSpaceChar (c : Char) : Bool :=
  c == ' ' || c == Char.ofNat 9 || c == Char.ofNat 10 || c == Char.ofNat 13

/-- Strip leading and trailing whitespace from a character list. -/
def trimChars (l : List Char) : List Char :=
  ((l.dropWhile isSpaceChar).reverse.dropWhile isSpaceChar).reverse

/-- Accumulate a base-10 digit string; `none` at the first non-digit. -/
def digitsAux : List Char → Nat → Option Nat
  | [], acc => some acc
  | c :: cs, acc =>
    if c.isDigit then digitsAux cs (acc * 10 + (c.toNat - 48)) else none

/-- A non-empty base-10 digit string, or `none`. -/
def digitsVal : List Char → Option Nat
  | [] => none
  | l => digitsAux l 0

/-- Python `int(s)` on a string: optional sign and digits, surrounding
whitespace stripped (digit-group underscores are not modelled; no schema
here feeds them). `none` models the `ValueError`. -/
def pyInt? (s : String) : Option Int :=
  match trimChars s.data with
  | '-' :: rest => (digitsVal rest).map fun n => -(n : Int)
  | '+' :: rest => (digitsVal rest).map fun n => (n : Int)
  | l => (digitsVal l).map fun n => (n : Int)

/-- The message of the `ValueError` raised by `int(s)` on a bad literal:
`invalid literal for int() with base 10: 'S'`. -/
def intErrMsg (s : String) : String :=
  "invalid literal for int() with base 10: " ++ squote ++ s ++ squote

/-- Calling a validator on one value, Python call semantics; `.error m`
models an exception whose `str` is `m`. -/
def applyValidator : PyType → PyVal → Except String PyVal
  | .bool, v => .ok (.bool (pyTruthy v))
  | .int, .str s =>
    match pyInt? s with
    | some n => .ok (.int n)
    | none => .error (intErrMsg s)
  | .int, .int n => .ok (.int n)
  | .int, .bool b => .ok (.int (if b then 1 else 0))
  | .int, _ => .error "int() argument error"
  | .str, v => .ok (.str (pyStrOf v))
  | .list, .list xs => .ok (.list xs)
  | .list, .str s => .ok (.list (s.data.map fun ch => .str (String.singleton ch)))
  | .list, _ => .error "list() argument error"

/-- The list comprehension `[validator(value) for value in values]`
(parser.py line 83): applies the validator left to right, aborting at the
first exception. -/
def mapConvert (t : PyType) : List PyVal → Except String (List PyVal)
  | [] => .ok []
  | v :: vs =>
    match applyValidator t v with
    | .error m => .error m
    | .ok r =>
      match mapConvert t vs with
      | .error m => .error m
      | .ok rs => .ok (r :: rs)

/-- Source: `isinstance(value, (list, set, tuple))` (parser.py line 71); in this
embedding the only container values are lists. -/
def isContainer : PyVal → Bool
  | .list _ => true
  | _ => false

/-- Python `self.default in (Ellipsis, False)` (parser.py line 75):
membership by `==`, so `Ellipsis`, `False` and the number `0` qualify. -/
def defaultIsEllipsisOrFalse : PyVal → Bool
  | .ellipsis => true
  | .bool b => b == false
  | .int n => n == 0
  | _ => false

/-- The class `Option` of parser.py (lines 35-52), renamed `Opt` to avoid
clashing with Lean's `Option`.  Field defaults in the source:
`abrev=True`, `positional=False`, `help=""`, `default=Ellipsis`
(`PyVal.ellipsis` here), `maximum=1`. -/
structure Opt where
  name : String
  validator : PyType
  abrev : Bool
  positional : Bool
  help : String
  default : PyVal
  maximum : Int

/-- Source: `self.required = True if default is Ellipsis else False`
(parser.py line 52). -/
def Opt.required (o : Opt) : Bool :=
  match o.default with
  | PyVal.ellipsis => true
  | _ => false

/-- parser.py lines 56-57 and 177-180. -/
def occurrenceMsg (name : String) (m : Int) : String :=
  "You can use `" ++ name ++ "` option only `" ++ toString m ++ "` times."

/-- parser.py line 189. -/
def needsArgumentMsg (name : String) : String :=
  "`" ++ name ++ "` option needs an argument"

/-- parser.py line 72. -/
def singleArgumentMsg (name : String) : String :=
  "`" ++ name ++ "` option must have single argument"

/-- parser.py line 211. -/
def requiredArgMsg (name : String) : String :=
  "Argument `" ++ name ++ "` is required"

/-- parser.py line 198. -/
def unknownArgMsg (t : String) : String :=
  "Unknown argument `" ++ t ++ "` found"

/-- Source: `Option.parse(self, *values)` (parser.py lines 55-85).  `values` is the
argument tuple.  Notes kept from the source: the complex-handler dispatch
(lines 59-62) never fires for the plain builtin validators modelled here;
the required-check block (lines 64-67) compares a tuple against `None`, so
it can never raise and is omitted as dead code. -/
def Opt.parse (o : Opt) (values : List PyVal) : Except PyErr PyVal :=
  if (values.length : Int) > o.maximum then
    .error (.validationError (occurrenceMsg o.name o.maximum))
  else if o.validator ≠ PyType.list ∧ values.any isContainer then
    .error (.validationError (singleArgumentMsg o.name))
  else if o.validator = PyType.bool then
    if defaultIsEllipsisOrFalse o.default then .ok (PyVal.bool true)
    else .ok (PyVal.bool false)
  else
    match values with
    | [v] =>
      match applyValidator o.validator v with
      | .ok r => .ok r
      | .error m => .error (.validationError m)
    | vs =>
      match mapConvert o.validator vs with
      | .ok rs => .ok (PyVal.list rs)
      | .error m => .error (.validationError m)

/-- Python `s.startswith(pre)`. -/
def pyStartsWith (s pre : String) : Bool :=
  pre.data.isPrefixOf s.data

/-- Source: `d[k] = v` on an ordered Python dict kept as an association list: an
existing key keeps its position, a new key goes to the end. -/
def dictSet (d : List (String × List String)) (k : String) (v : List String) :
    List (String × List String) :=
  match d with
  | [] => [(k, v)]
  | e :: rest => if e.1 == k then (k, v) :: rest else e :: dictSet rest k v

/-- The `while abrv in acceptables` loop of `_get_acceptable_arg_names`
(parser.py lines 150-152).  `keys` are the keys of the dict built so far
(note: the keys, i.e. the option names — not the spellings), `abrv` is
the current candidate, `rest` the characters of the name not yet consumed
(`arg.name[i+1:]`).  Running out of characters models the `IndexError`
from `arg.name[i]`. -/
def extendAbrv (keys : List String) : String → List Char → Except PyErr String
  | abrv, rest =>
    if keys.contains abrv then
      match rest with
      | [] => .error .indexError
      | c :: rest => extendAbrv keys (abrv.push c) rest
    else .ok abrv

/-- The body of `ArgumentParser._get_acceptable_arg_names`
(parser.py lines 139-154), folded over the option list with the dict
built so far in `acc`.  An empty option name also models the
`IndexError` of `arg.name[0]`. -/
def buildAcceptables (acc : List (String × List String)) :
    List Opt → Except PyErr (List (String × List String))
  | [] => .ok acc
  | o :: rest =>
    let acc1 := dictSet acc o.name ["--" ++ o.name]
    if o.abrev then
      match o.name.data with
      | [] => .error .indexError
      | c :: cs =>
        match extendAbrv (acc1.map Prod.fst) (String.mk ['-', c]) cs with
        | .error e => .error e
        | .ok abrv => buildAcceptables (dictSet acc1 o.name ["--" ++ o.name, abrv]) rest
    else buildAcceptables acc1 rest

/-- Source: `ArgumentParser._get_acceptable_arg_names` (parser.py lines 139-154). -/
def get_acceptable_arg_names (opts : List Opt) :
    Except PyErr (List (String × List String)) :=
  buildAcceptables [] opts

/-- Source: `ArgumentParser._check_acceptable` (parser.py lines 156-166): first
table entry whose spelling list contains the token. -/
def check_acceptable (table : List (String × List String)) (name : String) :
    Option String :=
  match table with
  | [] => none
  | e :: rest => if e.2.contains name then some e.1 else check_acceptable rest name

/-- The walrus test `if name := self._check_acceptable(arg):`
(parser.py line 176): an empty string is falsy. -/
def truthy : Option String → Option String
  | some s => if s = "" then none else some s
  | none => none

/-- The inner scan `while j < len(args) and not args[j].startswith("-")`
(parser.py lines 183-184 and 200-202): splits off the maximal run of
tokens not starting with `-`. -/
def findGroup : List String → List String × List String
  | [] => ([], [])
  | t :: ts =>
    if pyStartsWith t "-" then ([], t :: ts)
    else
      let p := findGroup ts
      (t :: p.1, p.2)

/-- Source: `arg_counter[name]` lookup. -/
def ctrGet (ctr : List (String × Int)) (k : String) : Int :=
  match ctr.find? (fun e => e.1 == k) with
  | some e => e.2
  | none => 0

/-- Source: `arg_counter[name] -= 1`. -/
def ctrDec : List (String × Int) → String → List (String × Int)
  | [], _ => []
  | e :: rest, k => if e.1 == k then (e.1, e.2 - 1) :: rest else e :: ctrDec rest k

/-- Source: `to_parse_args[name].append(to_send)`. -/
def tpApp : List (String × List PyVal) → String → PyVal → List (String × List PyVal)
  | [], _, _ => []
  | e :: rest, k, v => if e.1 == k then (e.1, e.2 ++ [v]) :: rest else e :: tpApp rest k v

/-- Source: `self.args[name]` lookup. -/
def lookupOpt (opts : List Opt) (name : String) : Option Opt :=
  opts.find? (fun o => o.name == name)

/-- Source: `self.args[name].maximum` (defaults to 0 on a missing key, which the
parse loop can never hit since resolved names come from the table). -/
def optMax (opts : List Opt) (name : String) : Int :=
  match lookupOpt opts name with
  | some o => o.maximum
  | none => 0

/-- Source: `self.args[name].validator == bool` (parser.py line 186). -/
def optIsBool (opts : List Opt) (name : String) : Bool :=
  match lookupOpt opts name with
  | some o => o.validator = PyType.bool
  | none => false

/-- The `while i < len(args)` grouping loop of `parse_arguments`
(parser.py lines 174-203), phrased on the token suffix: `args[i]` is the
head, the inner scan is `findGroup`, and `args[i:j]` — note: including
the flag token itself — is `arg :: group`.  The fuel is only a
termination device; `parse_arguments` supplies `args.length`, which the
lemma `gatherLoop_fuel` shows is never exhausted. -/
def gatherLoop (opts : List Opt) (table : List (String × List String))
    (allowUnknown : Bool) :
    Nat → List String → List (String × Int) → List (String × List PyVal) →
      Except PyErr (List (String × List PyVal))
  | _, [], _, tp => .ok tp
  | 0, _ :: _, _, _ => .error .fuelOut
  | fuel + 1, arg :: rest, ctr, tp =>
    match truthy (check_acceptable table arg) with
    | some name =>
      if ctrGet ctr name ≤ 0 then
        .error (.validationError (occurrenceMsg name (optMax opts name)))
      else
        let ctr2 := ctrDec ctr name
        let group := (findGroup rest).1
        let rest2 := (findGroup rest).2
        match group with
        | [] =>
          if optIsBool opts name then
            gatherLoop opts table allowUnknown fuel rest2 ctr2 (tpApp tp name (.bool true))
          else
            .error (.validationError (needsArgumentMsg name))
        | [t] =>
          gatherLoop opts table allowUnknown fuel rest2 ctr2 (tpApp tp name (.str t))
        | _ =>
          gatherLoop opts table allowUnknown fuel rest2 ctr2
            (tpApp tp name (.list ((arg :: group).map PyVal.str)))
    | none =>
      if allowUnknown = false then .error (.validationError (unknownArgMsg arg))
      else gatherLoop opts table allowUnknown fuel (findGroup rest).2 ctr tp

/-- The result-assembly loop of `parse_arguments` (parser.py lines
205-212), iterating the collected value-groups in schema order. -/
def coercePhase (opts : List Opt) :
    List (String × List PyVal) → Except PyErr (List (String × PyVal))
  | [] => .ok []
  | (nm, vals) :: rest =>
    match lookupOpt opts nm with
    | none => .error .keyError
    | some o =>
      match vals with
      | [] =>
        if o.required then .error (.validationError (requiredArgMsg nm))
        else
          match coercePhase opts rest with
          | .error e => .error e
          | .ok r => .ok ((nm, o.default) :: r)
      | _ =>
        match o.parse vals with
        | .error e => .error e
        | .ok v =>
          match coercePhase opts rest with
          | .error e => .error e
          | .ok r => .ok ((nm, v) :: r)

/-- An `ArgumentParser` instance after `__init__`: the ordered option
dict `self.args`, the table `self._acceptables`, the config flag
`allow_unknown`, and the overridable hook `validate_args` (parser.py
lines 94-137).  The default hook returns its argument unchanged. -/
structure ArgParser where
  opts : List Opt
  acceptables : List (String × List String)
  allow_unknown : Bool
  validate_args : List (String × PyVal) → Except PyErr (List (String × PyVal))

/-- Source: `self._acceptables = self._get_acceptable_arg_names()` in
`ArgumentParser.__init__` (parser.py line 120): building the parser
fails exactly when the table builder raises. -/
def ArgParser.init (opts : List Opt) (allowUnknown : Bool)
    (hook : List (String × PyVal) → Except PyErr (List (String × PyVal))) :
    Except PyErr ArgParser :=
  match get_acceptable_arg_names opts with
  | .error e => .error e
  | .ok tbl => .ok ⟨opts, tbl, allowUnknown, hook⟩

/-- Source: `{name: arg.maximum for ...}` (parser.py line 171). -/
def initCounter (opts : List Opt) : List (String × Int) :=
  opts.map fun o => (o.name, o.maximum)

/-- Source: `{name: [] for ...}` (parser.py line 172). -/
def initToParse (opts : List Opt) : List (String × List PyVal) :=
  opts.map fun o => (o.name, ([] : List PyVal))

/-- Source: `ArgumentParser.parse_arguments` (parser.py lines 168-215): group the
tokens, coerce per option (or default / raise on missing required), then
`return self.validate_args(results)` — note: with no `try` around the
hook call, so whatever the hook raises propagates unchanged. -/
def parse_arguments (p : ArgParser) (args : List String) :
    Except PyErr (List (String × PyVal)) :=
  match gatherLoop p.opts p.acceptables p.allow_unknown args.length args
      (initCounter p.opts) (initToParse p.opts) with
  | .error e => .error e
  | .ok tp =>
    match coercePhase p.opts tp with
    | .error e => .error e
    | .ok results => p.validate_args results

/-- Whether a parse result is a raised `ValidationError`. -/
def isValidationError : Except PyErr (List (String × PyVal)) → Bool
  | .error (.validationError _) => true
  | _ => false

/-- Whether `sub` occurs as a contiguous substring of `s` (Python `in`). -/
def strContainsSub (s sub : String) : Bool :=
  s.data.tails.any fun t => sub.data.isPrefixOf t

/-! ## Shared lemmas -/

theorem string_data_append (a b : String) : (a ++ b).data = a.data ++ b.data := by
  cases a
  cases b
  rfl

theorem pyStartsWith_dashdash (s : String) : pyStartsWith ("--" ++ s) "-" = true := by
  unfold pyStartsWith
  rw [string_data_append]
  simp [List.isPrefixOf]

theorem name_ne_empty (s : String) (c : Char) (cs : List Char)
    (h : s.data = c :: cs) : s ≠ "" := by
  intro he
  rw [he] at h
  exact List.noConfusion h

/-! ## Concrete evaluations -/

/-- C1: with the schema `{tags: List(str), max_occurrences=2, default=[]}`
(here: validator `list`, maximum 2, default `[]`), parsing
`["--tags","a","b","--tags","c"]` does NOT give `{tags:["a","b","c"]}`:
the slice `args[i:j]` (parser.py line 193) keeps the flag token itself in
every multi-token value-group, and each group is converted as a whole, so
the result maps `tags` to `[["--tags","a","b"],["c"]]` with the flag token
`"--tags"` inside it. -/
theorem c1_list_groups_keep_flag_token :
    (ArgParser.init [⟨"tags", PyType.list, true, false, "", PyVal.list [], 2⟩]
        true Except.ok).bind
      (fun p => parse_arguments p ["--tags", "a", "b", "--tags", "c"]) =
    Except.ok [("tags",
      PyVal.list [PyVal.list [PyVal.str "--tags", PyVal.str "a", PyVal.str "b"],
        PyVal.list [PyVal.str "c"]])] := rfl

/-- C2: for the schema with options `alpha` and `apple` (same first letter,
abbreviation enabled) the acceptable-name table is built WITHOUT detecting
the collision — `while abrv in acceptables` (parser.py line 150) tests the
dict keys, i.e. the option names, never the spellings — so both options
receive the same short form `-a`, and resolving `-a` returns `alpha`,
never `apple`. -/
theorem c2_abbreviation_collision_undetected :
    get_acceptable_arg_names
        [⟨"alpha", PyType.str, true, false, "", PyVal.ellipsis, 1⟩,
         ⟨"apple", PyType.str, true, false, "", PyVal.ellipsis, 1⟩] =
      Except.ok [("alpha", ["--alpha", "-a"]), ("apple", ["--apple", "-a"])] ∧
    check_acceptable [("alpha", ["--alpha", "-a"]), ("apple", ["--apple", "-a"])]
        "-a" = some "alpha" :=
  ⟨rfl, rfl⟩

/-- C9: building the acceptable-name table can raise: for the schema with
option names `-a` and `a` (both with abbreviation enabled), the collision
loop increments its index past the end of the one-character name `a` and
`arg.name[i]` (parser.py line 152) raises `IndexError` instead of
assigning no short form. -/
theorem c9_table_builder_index_error :
    get_acceptable_arg_names
        [⟨"-a", PyType.str, true, false, "", PyVal.ellipsis, 1⟩,
         ⟨"a", PyType.str, true, false, "", PyVal.ellipsis, 1⟩] =
      Except.error PyErr.indexError := rfl

/-- C4: `parse_arguments` does not wrap failures of the user hook: with a
`validate_args` override that raises `AssertionError("boom")`, the call
`return self.validate_args(results)` (parser.py line 215) has no
`try`/`except` around it, so the `AssertionError` propagates raw to the
caller instead of being surfaced as a `ValidationError` — contrary to the
method's own docstring (parser.py lines 128-129). -/
theorem c4_hook_exception_not_wrapped :
    (ArgParser.init [⟨"flag", PyType.bool, true, false, "", PyVal.bool false, 1⟩]
        true (fun _ => Except.error (PyErr.assertionError "boom"))).bind
      (fun p => parse_arguments p []) =
      Except.error (PyErr.assertionError "boom") ∧
    isValidationError
      ((ArgParser.init [⟨"flag", PyType.bool, true, false, "", PyVal.bool false, 1⟩]
          true (fun _ => Except.error (PyErr.assertionError "boom"))).bind
        (fun p => parse_arguments p [])) = false :=
  ⟨rfl, rfl⟩

/-- C3 counterexample: for the Scalar option `port` of shape `int` and the
token `abc`, the parse fails with a `ValidationError` whose message is
exactly the converter's own message `str(e)` (parser.py line 85): the
option name `port` does not occur in the payload at all. -/
theorem c3_counterexample :
    (ArgParser.init [⟨"port", PyType.int, true, false, "", PyVal.ellipsis, 1⟩]
        true Except.ok).bind
      (fun p => parse_arguments p ["--port", "abc"]) =
      Except.error (PyErr.validationError (intErrMsg "abc")) ∧
    strContainsSub (intErrMsg "abc") "port" = false :=
  ⟨rfl, rfl⟩

/-! ## Parsing the empty argument list -/

theorem lookupOpt_self (opts : List Opt) (hnd : (opts.map Opt.name).Nodup) :
    ∀ o ∈ opts, lookupOpt opts o.name = some o := by
  induction opts with
  | nil => intro o ho; cases ho
  | cons a rest ih =>
    intro o ho
    rcases List.mem_cons.mp ho with h | h
    · subst h
      simp [lookupOpt, List.find?]
    · have hnr := List.nodup_cons.mp hnd
      have hne : (a.name == o.name) = false := by
        refine beq_eq_false_iff_ne.mpr ?h
        intro he
        exact hnr.1 (he ▸ List.mem_map_of_mem Opt.name h)
      have := ih hnr.2 o h
      simp only [lookupOpt, List.find?] at this ⊢
      rw [hne]
      exact this

theorem coerce_empty_ok (opts : List Opt) (sub : List Opt)
    (hs : ∀ o ∈ sub, lookupOpt opts o.name = some o)
    (hreq : ∀ o ∈ sub, o.required = false) :
    coercePhase opts (sub.map fun o => (o.name, ([] : List PyVal))) =
      Except.ok (sub.map fun o => (o.name, o.default)) := by
  induction sub with
  | nil => rfl
  | cons a rest ih =>
    have ha := hs a (List.mem_cons_self a rest)
    have har := hreq a (List.mem_cons_self a rest)
    have htail := ih (fun o ho => hs o (List.mem_cons_of_mem a ho))
      (fun o ho => hreq o (List.mem_cons_of_mem a ho))
    simp only [List.map_cons, coercePhase, ha, har, htail]
    simp

theorem coerce_empty_err (opts : List Opt) (sub : List Opt)
    (hs : ∀ o ∈ sub, lookupOpt opts o.name = some o)
    (o : Opt) (hfind : sub.find? Opt.required = some o) :
    coercePhase opts (sub.map fun v => (v.name, ([] : List PyVal))) =
      Except.error (PyErr.validationError (requiredArgMsg o.name)) := by
  induction sub with
  | nil => cases hfind
  | cons a rest ih =>
    have ha := hs a (List.mem_cons_self a rest)
    by_cases har : a.required
    · rw [List.find?_cons_of_pos _ har] at hfind
      cases hfind
      simp only [List.map_cons, coercePhase, ha, har, if_pos rfl]
      simp [har]
    · rw [List.find?_cons_of_neg _ har] at hfind
      have htail := ih (fun v hv => hs v (List.mem_cons_of_mem a hv)) hfind
      simp only [Bool.not_eq_true] at har
      simp only [List.map_cons, coercePhase, ha, har, htail]
      simp

/-- C5: for every schema (with the default `validate_args` hook),
`parse_arguments([])` succeeds — yielding every option's default — if and
only if every option is non-required (i.e. was given a default); when some
option is required, it fails with the `ValidationError`
`Argument `name` is required` naming the first required option in
schema-declaration order. -/
theorem c5_empty_parse (p : ArgParser) (hnd : (p.opts.map Opt.name).Nodup)
    (hhook : p.validate_args = Except.ok) :
    (parse_arguments p [] =
        Except.ok (p.opts.map fun o => (o.name, o.default)) ↔
      ∀ o ∈ p.opts, o.required = false) ∧
    ∀ o, p.opts.find? Opt.required = some o →
      parse_arguments p [] =
        Except.error (PyErr.validationError (requiredArgMsg o.name)) := by
  have hlk := lookupOpt_self p.opts hnd
  have hg : gatherLoop p.opts p.acceptables p.allow_unknown 0 []
      (initCounter p.opts) (p.opts.map fun o => (o.name, ([] : List PyVal))) =
      .ok (p.opts.map fun o => (o.name, ([] : List PyVal))) := rfl
  cases hfind : p.opts.find? Opt.required with
  | none =>
    have hreq : ∀ o ∈ p.opts, o.required = false := by
      intro o ho
      simpa using List.find?_eq_none.mp hfind o ho
    have hcc := coerce_empty_ok p.opts p.opts hlk hreq
    have hpu : parse_arguments p [] =
        Except.ok (p.opts.map fun o => (o.name, o.default)) := by
      unfold parse_arguments
      simp only [List.length_nil, hg, initToParse, hcc, hhook]
    refine ⟨⟨fun _ => hreq, fun _ => hpu⟩, ?rest⟩
    intro o h
    cases h
  | some o0 =>
    have hcc := coerce_empty_err p.opts p.opts hlk o0 hfind
    have hpu : parse_arguments p [] =
        Except.error (PyErr.validationError (requiredArgMsg o0.name)) := by
      unfold parse_arguments
      simp only [List.length_nil, hg, initToParse, hcc]
    constructor
    · constructor
      · intro h
        rw [hpu] at h
        cases h
      · intro hall
        have hmem := List.mem_of_find?_eq_some hfind
        have hq := List.find?_some hfind
        rw [hall o0 hmem] at hq
        cases hq
    · intro o h
      cases h
      exact hpu

/-- Witness for C5 at a concrete schema with one required option `a`. -/
theorem c5_witness :
    parse_arguments
        ⟨[⟨"a", PyType.str, true, false, "", PyVal.ellipsis, 1⟩],
         [("a", ["--a", "-a"])], true, Except.ok⟩ [] =
      Except.error (PyErr.validationError (requiredArgMsg "a")) :=
  (c5_empty_parse _ (by simp) rfl).2
    ⟨"a", PyType.str, true, false, "", PyVal.ellipsis, 1⟩ rfl

/-! ## Single-option schemas -/

theorem build_single (o : Opt) (c : Char) (cs : List Char)
    (hn : o.name.data = c :: cs) (hc : c ≠ '-') (hab : o.abrev = true) :
    get_acceptable_arg_names [o] =
      Except.ok [(o.name, ["--" ++ o.name, String.mk ['-', c]])] := by
  have hne : (String.mk ['-', c] == o.name) = false := by
    refine beq_eq_false_iff_ne.mpr ?h
    intro he
    rw [← he] at hn
    have h2 : ('-' :: [c] : List Char) = c :: cs := hn
    injection h2 with h3 h4
    exact hc h3.symm
  have hex : extendAbrv [o.name] (String.mk ['-', c]) cs =
      Except.ok (String.mk ['-', c]) := by
    unfold extendAbrv
    simp [List.contains, List.elem, hne]
  unfold get_acceptable_arg_names buildAcceptables
  simp only [dictSet, hab, if_pos rfl, hn]
  simp only [List.map_cons, List.map_nil, hex]
  simp [dictSet, buildAcceptables]

theorem check_single_long (name short : String) :
    check_acceptable [(name, ["--" ++ name, short])] ("--" ++ name) = some name := by
  simp [check_acceptable, List.contains]

theorem truthy_some (s : String) (h : s ≠ "") : truthy (some s) = some s := by
  simp [truthy, h]

/-- C8: a Bool option with default `false`: the flag alone (no value token
following) parses to `true`, the empty input parses to `false`. -/
theorem c8_bool_flag (name : String) (c : Char) (cs : List Char)
    (hn : name.data = c :: cs) (hc : c ≠ '-')
    (tbl : List (String × List String))
    (htbl : get_acceptable_arg_names
        [⟨name, PyType.bool, true, false, "", PyVal.bool false, 1⟩] = Except.ok tbl) :
    parse_arguments ⟨[⟨name, PyType.bool, true, false, "", PyVal.bool false, 1⟩],
        tbl, true, Except.ok⟩ ["--" ++ name] = Except.ok [(name, PyVal.bool true)] ∧
    parse_arguments ⟨[⟨name, PyType.bool, true, false, "", PyVal.bool false, 1⟩],
        tbl, true, Except.ok⟩ [] = Except.ok [(name, PyVal.bool false)] := by
  have hne := name_ne_empty name c cs hn
  rw [build_single _ c cs hn hc rfl] at htbl
  injection htbl with htbl2
  subst htbl2
  constructor
  · unfold parse_arguments
    simp only [initCounter, initToParse, List.map_cons, List.map_nil,
      List.length_cons, List.length_nil]
    simp only [gatherLoop, check_single_long, truthy_some name hne]
    have hic : isContainer (PyVal.bool true) = false := rfl
    norm_num [ctrGet, List.find?, ctrDec, findGroup, optIsBool, lookupOpt, tpApp,
      coercePhase, Opt.parse, defaultIsEllipsisOrFalse, hic]
  · unfold parse_arguments
    simp only [initCounter, initToParse, List.map_cons, List.map_nil, List.length_nil]
    simp only [gatherLoop]
    norm_num [coercePhase, lookupOpt, List.find?, Opt.required]

/-- C10: a Bool option with default `true`: the flag alone parses to
`false` — presence of the flag yields the negation of the default, because
`Option.parse` (parser.py lines 74-77) returns `True` only when the
default is Ellipsis or False. -/
theorem c10_bool_default_true (name : String) (c : Char) (cs : List Char)
    (hn : name.data = c :: cs) (hc : c ≠ '-')
    (tbl : List (String × List String))
    (htbl : get_acceptable_arg_names
        [⟨name, PyType.bool, true, false, "", PyVal.bool true, 1⟩] = Except.ok tbl) :
    parse_arguments ⟨[⟨name, PyType.bool, true, false, "", PyVal.bool true, 1⟩],
        tbl, true, Except.ok⟩ ["--" ++ name] = Except.ok [(name, PyVal.bool false)] := by
  have hne := name_ne_empty name c cs hn
  rw [build_single _ c cs hn hc rfl] at htbl
  injection htbl with htbl2
  subst htbl2
  unfold parse_arguments
  simp only [initCounter, initToParse, List.map_cons, List.map_nil,
    List.length_cons, List.length_nil]
  simp only [gatherLoop, check_single_long, truthy_some name hne]
  have hic : isContainer (PyVal.bool true) = false := rfl
  norm_num [ctrGet, List.find?, ctrDec, findGroup, optIsBool, lookupOpt, tpApp,
    coercePhase, Opt.parse, defaultIsEllipsisOrFalse, hic]

/-- Witness for C8 at the concrete option `flag`. -/
theorem c8_witness :
    parse_arguments ⟨[⟨"flag", PyType.bool, true, false, "", PyVal.bool false, 1⟩],
        [("flag", ["--flag", "-f"])], true, Except.ok⟩ ["--flag"] =
      Except.ok [("flag", PyVal.bool true)] ∧
    parse_arguments ⟨[⟨"flag", PyType.bool, true, false, "", PyVal.bool false, 1⟩],
        [("flag", ["--flag", "-f"])], true, Except.ok⟩ [] =
      Except.ok [("flag", PyVal.bool false)] :=
  c8_bool_flag "flag" 'f' ['l', 'a', 'g'] rfl (by decide) _ rfl

/-- Witness for C10 at the concrete option `flag` with default `True`. -/
theorem c10_witness :
    parse_arguments ⟨[⟨"flag", PyType.bool, true, false, "", PyVal.bool true, 1⟩],
        [("flag", ["--flag", "-f"])], true, Except.ok⟩ ["--flag"] =
      Except.ok [("flag", PyVal.bool false)] :=
  c10_bool_default_true "flag" 'f' ['l', 'a', 'g'] rfl (by decide) _ rfl

/-- C7: a Scalar option (element converter `int` or `str`) whose flag is
followed by the two value tokens `a` and `b` fails with the arity
`ValidationError` whose message is "`name` option must have single
argument" (the multi-token value-group arrives as a list value and
parser.py line 72 rejects it). -/
theorem c7_scalar_two_tokens (name : String) (c : Char) (cs : List Char)
    (hn : name.data = c :: cs) (hc : c ≠ '-') (v : PyType)
    (hv : v = PyType.int ∨ v = PyType.str) (d : PyVal) (m : Int) (hm : 1 ≤ m)
    (tbl : List (String × List String))
    (htbl : get_acceptable_arg_names [⟨name, v, true, false, "", d, m⟩] =
      Except.ok tbl) :
    parse_arguments ⟨[⟨name, v, true, false, "", d, m⟩], tbl, true, Except.ok⟩
        ["--" ++ name, "a", "b"] =
      Except.error (PyErr.validationError (singleArgumentMsg name)) := by
  have hne := name_ne_empty name c cs hn
  rw [build_single _ c cs hn hc rfl] at htbl
  injection htbl with h2
  subst h2
  have hfg : findGroup ["a", "b"] = (["a", "b"], []) := rfl
  unfold parse_arguments
  simp only [initCounter, initToParse, List.map_cons, List.map_nil,
    List.length_cons, List.length_nil]
  simp only [gatherLoop, check_single_long, truthy_some name hne]
  rw [show ctrGet [(name, m)] name = m from by simp [ctrGet, List.find?]]
  rw [if_neg (show ¬ m ≤ 0 from by omega)]
  simp only [hfg, ctrDec, tpApp, beq_self_eq_true, if_pos rfl]
  simp only [gatherLoop, coercePhase, lookupOpt, List.find?, beq_self_eq_true]
  have hlen : ¬ ((1 : Int) > m) := by omega
  have hcont : ∀ x, isContainer (PyVal.list x) = true := fun _ => rfl
  rcases hv with hv | hv <;> subst hv <;>
    simp [Opt.parse, hlen, hcont]

/-- C3 (amended): for a Scalar option of shape `int` and any value token
on which the converter fails, the parse fails with a `ValidationError`
whose message is exactly the converter's failure message `str(e)`
(parser.py line 85) — the raw exception is wrapped, never propagated, but
the option name is NOT part of the payload. -/
theorem c3_conversion_wrapped (name : String) (c : Char) (cs : List Char)
    (hn : name.data = c :: cs) (hc : c ≠ '-') (d : PyVal) (t : String)
    (ht : pyStartsWith t "-" = false) (hbad : pyInt? t = none)
    (tbl : List (String × List String))
    (htbl : get_acceptable_arg_names [⟨name, PyType.int, true, false, "", d, 1⟩] =
      Except.ok tbl) :
    parse_arguments ⟨[⟨name, PyType.int, true, false, "", d, 1⟩], tbl, true,
        Except.ok⟩ ["--" ++ name, t] =
      Except.error (PyErr.validationError (intErrMsg t)) := by
  have hne := name_ne_empty name c cs hn
  rw [build_single _ c cs hn hc rfl] at htbl
  injection htbl with h2
  subst h2
  have hfg : findGroup [t] = ([t], []) := by simp [findGroup, ht]
  unfold parse_arguments
  simp only [initCounter, initToParse, List.map_cons, List.map_nil,
    List.length_cons, List.length_nil]
  simp only [gatherLoop, check_single_long, truthy_some name hne]
  rw [show ctrGet [(name, 1)] name = 1 from by simp [ctrGet, List.find?]]
  rw [if_neg (show ¬ (1 : Int) ≤ 0 from by omega)]
  simp only [hfg, ctrDec, tpApp, beq_self_eq_true, if_pos rfl]
  simp only [gatherLoop, coercePhase, lookupOpt, List.find?, beq_self_eq_true]
  have hcont : isContainer (PyVal.str t) = false := rfl
  simp [Opt.parse, hcont, applyValidator, hbad]

/-- Witness for C7 at the concrete Scalar option `x` of shape `int`. -/
theorem c7_witness :
    parse_arguments ⟨[⟨"x", PyType.int, true, false, "", PyVal.ellipsis, 1⟩],
        [("x", ["--x", "-x"])], true, Except.ok⟩ ["--x", "a", "b"] =
      Except.error (PyErr.validationError (singleArgumentMsg "x")) :=
  c7_scalar_two_tokens "x" 'x' [] rfl (by decide) PyType.int (Or.inl rfl)
    PyVal.ellipsis 1 (by norm_num) _ rfl

/-- Witness for C3 (amended) at the option `port` and the token `abc`. -/
theorem c3_witness :
    parse_arguments ⟨[⟨"port", PyType.int, true, false, "", PyVal.ellipsis, 1⟩],
        [("port", ["--port", "-p"])], true, Except.ok⟩ ["--port", "abc"] =
      Except.error (PyErr.validationError (intErrMsg "abc")) :=
  c3_conversion_wrapped "port" 'p' ['o', 'r', 't'] rfl (by decide)
    PyVal.ellipsis "abc" rfl rfl _ rfl

/-! ## Occurrence limits -/

theorem findGroup_replicate (k : Nat) (s : String) (h : pyStartsWith s "-" = true) :
    findGroup (List.replicate k s) = ([], List.replicate k s) := by
  cases k with
  | zero => rfl
  | succ k => simp [List.replicate_succ, findGroup, h]

theorem any_isContainer_replicate_bool (q : Nat) :
    (List.replicate q (PyVal.bool true)).any isContainer = false := by
  induction q with
  | zero => rfl
  | succ q ih => simp [List.replicate_succ, List.any_cons, ih, isContainer]

theorem gather_flags (name : String) (hne : name ≠ "") (c : Char)
    (d : PyVal) (n : Nat) (k : Nat) :
    ∀ (fuel : Nat) (cnt : Int) (gs : List PyVal), k ≤ fuel → 0 ≤ cnt →
    gatherLoop [⟨name, PyType.bool, true, false, "", d, (n : Int)⟩]
        [(name, ["--" ++ name, String.mk ['-', c]])] true fuel
        (List.replicate k ("--" ++ name)) [(name, cnt)] [(name, gs)] =
      (if (k : Int) ≤ cnt then
        Except.ok [(name, gs ++ List.replicate k (PyVal.bool true))]
       else Except.error (PyErr.validationError (occurrenceMsg name (n : Int)))) := by
  induction k with
  | zero =>
    intro fuel cnt gs hf h0
    rw [if_pos (by exact_mod_cast h0)]
    simp [gatherLoop]
  | succ k ih =>
    intro fuel cnt gs hf h0
    obtain ⟨f, rfl⟩ : ∃ f, fuel = f + 1 := ⟨fuel - 1, by omega⟩
    rw [List.replicate_succ]
    simp only [gatherLoop, check_single_long, truthy_some name hne]
    rw [show ctrGet [(name, cnt)] name = cnt from by simp [ctrGet, List.find?]]
    rw [show optMax [⟨name, PyType.bool, true, false, "", d, (n : Int)⟩] name = (n : Int)
      from by simp [optMax, lookupOpt, List.find?]]
    by_cases hcnt : cnt ≤ 0
    · rw [if_pos hcnt, if_neg (by push_cast; omega)]
    · rw [if_neg hcnt]
      rw [show ctrDec [(name, cnt)] name = [(name, cnt - 1)] from by simp [ctrDec]]
      simp only [findGroup_replicate k ("--" ++ name) (pyStartsWith_dashdash name)]
      rw [show optIsBool [⟨name, PyType.bool, true, false, "", d, (n : Int)⟩] name = true
        from by simp [optIsBool, lookupOpt, List.find?]]
      rw [show tpApp [(name, gs)] name (PyVal.bool true) = [(name, gs ++ [PyVal.bool true])]
        from by simp [tpApp]]
      simp only [if_pos rfl]
      rw [ih f (cnt - 1) (gs ++ [PyVal.bool true]) (by omega) (by omega)]
      rw [if_true]
      by_cases h2 : (k : Int) ≤ cnt - 1
      · rw [if_pos h2, if_pos (show ((k + 1 : Nat) : Int) ≤ cnt from by push_cast; omega)]
        simp [List.replicate_succ]
      · rw [if_neg h2, if_neg (show ¬ ((k + 1 : Nat) : Int) ≤ cnt from by push_cast; omega)]

/-- C6: for every Bool option with `max_occurrences = n` (`n ≥ 1`),
supplying the flag exactly `n` times parses successfully, while supplying
it `n+1` times fails with the occurrence-limit `ValidationError`
"You can use `name` option only `n` times." raised by the counter check
(parser.py lines 177-180). -/
theorem c6_occurrence_limit (name : String) (c : Char) (cs : List Char)
    (hn : name.data = c :: cs) (hc : c ≠ '-') (d : PyVal) (n : Nat) (hpos : 1 ≤ n)
    (tbl : List (String × List String))
    (htbl : get_acceptable_arg_names
        [⟨name, PyType.bool, true, false, "", d, (n : Int)⟩] = Except.ok tbl) :
    (∃ v, parse_arguments ⟨[⟨name, PyType.bool, true, false, "", d, (n : Int)⟩],
        tbl, true, Except.ok⟩ (List.replicate n ("--" ++ name)) =
      Except.ok [(name, v)]) ∧
    parse_arguments ⟨[⟨name, PyType.bool, true, false, "", d, (n : Int)⟩],
        tbl, true, Except.ok⟩ (List.replicate (n + 1) ("--" ++ name)) =
      Except.error (PyErr.validationError (occurrenceMsg name (n : Int))) := by
  have hne := name_ne_empty name c cs hn
  rw [build_single _ c cs hn hc rfl] at htbl
  injection htbl with h2
  subst h2
  obtain ⟨m, rfl⟩ : ∃ m, n = m + 1 := ⟨n - 1, by omega⟩
  have hparse : Opt.parse ⟨name, PyType.bool, true, false, "", d, ((m + 1 : Nat) : Int)⟩
      (PyVal.bool true :: List.replicate m (PyVal.bool true)) =
      Except.ok (PyVal.bool (defaultIsEllipsisOrFalse d)) := by
    unfold Opt.parse
    rw [← List.replicate_succ, List.length_replicate]
    rw [if_neg (show ¬ ((((m + 1 : Nat) : Nat) : Int) > ((m + 1 : Nat) : Int)) from by omega)]
    have hany := any_isContainer_replicate_bool (m + 1)
    simp only [hany, Bool.false_eq_true, and_false, if_false, if_true]
    cases hdd : defaultIsEllipsisOrFalse d <;> simp [hdd]
  have hco : coercePhase [⟨name, PyType.bool, true, false, "", d, ((m + 1 : Nat) : Int)⟩]
      [(name, List.replicate (m + 1) (PyVal.bool true))] =
      Except.ok [(name, PyVal.bool (defaultIsEllipsisOrFalse d))] := by
    rw [List.replicate_succ]
    simp only [coercePhase, lookupOpt, List.find?, beq_self_eq_true, hparse]
  constructor
  · refine ⟨PyVal.bool (defaultIsEllipsisOrFalse d), ?s⟩
    unfold parse_arguments
    simp only [initCounter, initToParse, List.map_cons, List.map_nil,
      List.length_replicate]
    rw [gather_flags name hne c d (m + 1) (m + 1) (m + 1) ((m + 1 : Nat) : Int) []
      (le_refl _) (by omega)]
    rw [if_pos (le_refl _)]
    simp only [List.nil_append, hco]
  · unfold parse_arguments
    simp only [initCounter, initToParse, List.map_cons, List.map_nil,
      List.length_replicate]
    rw [gather_flags name hne c d (m + 1) (m + 1 + 1) (m + 1 + 1) ((m + 1 : Nat) : Int) []
      (le_refl _) (by omega)]
    rw [if_neg (by push_cast; omega)]

/-- Witness for C6 at the concrete Bool option `flag` with
`max_occurrences = 2`. -/
theorem c6_witness :
    (∃ v, parse_arguments ⟨[⟨"flag", PyType.bool, true, false, "", PyVal.bool false, 2⟩],
        [("flag", ["--flag", "-f"])], true, Except.ok⟩ ["--flag", "--flag"] =
      Except.ok [("flag", v)]) ∧
    parse_arguments ⟨[⟨"flag", PyType.bool, true, false, "", PyVal.bool false, 2⟩],
        [("flag", ["--flag", "-f"])], true, Except.ok⟩
        ["--flag", "--flag", "--flag"] =
      Except.error (PyErr.validationError (occurrenceMsg "flag" 2)) :=
  c6_occurrence_limit "flag" 'f' ['l', 'a', 'g'] rfl (by decide)
    (PyVal.bool false) 2 (by norm_num) _ rfl
